import Mathlib

/-!
Verification development for the docx bilingual translation pipeline
(`a1.py`): a shallow embedding of its text chunker, run-style extractor,
document-model builder, translation scheduler and interleaved document
assembler, with theorems settling the specified properties.

Python strings are modelled as lists of characters (code points); the
external libraries (nltk sentence tokenizer, the translation backend,
python-docx relationship lookup) are modelled as function parameters or
option-valued fields, following the interfaces the program uses.
-/

/-- Python strings, as sequences of code points. -/
abbrev Text := List Char

/-- The whitespace code points recognised by Python's str.strip / str.isspace:
tab, LF, VT, FF, CR, FS, GS, RS, US, space, NEL, NBSP, and the Unicode
space separators. -/
def pyWhitespace : Text :=
  [Char.ofNat 9, Char.ofNat 10, Char.ofNat 11, Char.ofNat 12, Char.ofNat 13,
   Char.ofNat 28, Char.ofNat 29, Char.ofNat 30, Char.ofNat 31, Char.ofNat 32,
   Char.ofNat 133, Char.ofNat 160, Char.ofNat 5760,
   Char.ofNat 8192, Char.ofNat 8193, Char.ofNat 8194, Char.ofNat 8195,
   Char.ofNat 8196, Char.ofNat 8197, Char.ofNat 8198, Char.ofNat 8199,
   Char.ofNat 8200, Char.ofNat 8201, Char.ofNat 8202,
   Char.ofNat 8232, Char.ofNat 8233, Char.ofNat 8239, Char.ofNat 8287,
   Char.ofNat 12288]

/-- Whether a character is Python whitespace. -/
def pyIsSpace (c : Char) : Bool := pyWhitespace.contains c

/-- Python str.strip(): remove leading and trailing whitespace. -/
def pyStrip (s : Text) : Text :=
  ((s.dropWhile pyIsSpace).reverse.dropWhile pyIsSpace).reverse

/-- Python str.lower(), restricted to the ASCII range (all comparisons in
the program are against ASCII literals). -/
def pyLower (s : Text) : Text := s.map Char.toLower

/-- Python str.startswith(p). -/
def pyStartsWith (p s : Text) : Bool := s.take p.length == p

/-- Space, the join separator of the program. -/
def strSpace : Text := " ".data

/-- Newline, the paragraph separator used by the cell text accessor. -/
def strNL : Text := "\n".data

/-- Fixed-width character slices, one per index of range(0, len(s), maxChars):
the list comprehension of the chunker's fallback path and of its oversized
sentence hard-split.  Implemented with a fuel argument equal to the length of
the text, which bounds the number of slices; a zero step (which would raise in
Python) yields the empty list.  -/
def charSlicesAux : Nat → Nat → Text → List Text
  | 0, _, _ => []
  | fuel + 1, maxChars, s =>
    if s.isEmpty ∨ maxChars = 0 then []
    else s.take maxChars :: charSlicesAux fuel maxChars (s.drop maxChars)

/-- Fixed-width character slicing, s[i:i+maxChars] for i in range(0, len(s), maxChars). -/
def charSlices (maxChars : Nat) (s : Text) : List Text :=
  charSlicesAux (s.length + 1) maxChars s

/-- Model of split_text_into_chunks (a1.py lines 78-96).  The nltk sentence
tokenizer is an external capability, passed as a function returning none when
tokenization raises (the fallback path) and the sentence list otherwise.  -/
def split_text_into_chunks (sentTokenize : Text → Option (List Text))
    (long_text : Text) (max_chars : Nat) : List Text :=
  if long_text.length ≤ max_chars then
    if (pyStrip long_text).isEmpty then [] else [long_text]
  else
    match sentTokenize long_text with
    | none => charSlices max_chars long_text
    | some sentences =>
      let step : (List Text × Text) → Text → (List Text × Text) := fun acc sentence =>
        let p1 : List Text × Text :=
          if max_chars < acc.2.length + sentence.length + 1 ∧ ¬ acc.2.isEmpty then
            (acc.1 ++ [pyStrip acc.2], [])
          else acc
        if max_chars < sentence.length then
          let p2 : List Text × Text :=
            if ¬ p1.2.isEmpty then (p1.1 ++ [pyStrip p1.2], []) else p1
          (p2.1 ++ charSlices max_chars sentence, p2.2)
        else
          (p1.1, p1.2 ++ sentence ++ strSpace)
      let r := sentences.foldl step ([], [])
      let chunks := if ¬ r.2.isEmpty then r.1 ++ [pyStrip r.2] else r.1
      chunks.filter (fun c => !(pyStrip c).isEmpty)

/-- String literal "false". -/
def strFalse : Text := "false".data

/-- String literal "0". -/
def strZero : Text := "0".data

/-- String literal "none". -/
def strNone : Text := "none".data

/-- String literal "auto". -/
def strAuto : Text := "auto".data

/-- String literal "000000", literal black. -/
def strBlack : Text := "000000".data

/-- String literal "continue". -/
def strContinue : Text := "continue".data

/-- An on-off child element of w:rPr (w:b, w:bCs, w:i, w:iCs); val is its
optional w:val attribute, kept as the raw attribute string. -/
structure OnOffEl where
  val : Option Text
deriving DecidableEq

/-- The w:rFonts element: the four font-name attributes. -/
structure RFonts where
  eastAsia : Option Text
  ascii : Option Text
  hAnsi : Option Text
  cs : Option Text
deriving DecidableEq

/-- The run properties element w:rPr, with the children read by
get_run_formatting.  Element-valued fields are none when the child is absent;
the inner option of sz/szCs/color/rStyle is the child's w:val attribute. -/
structure RPr where
  b : Option OnOffEl
  bCs : Option OnOffEl
  i : Option OnOffEl
  iCs : Option OnOffEl
  u : Option OnOffEl
  rFonts : Option RFonts
  sz : Option (Option Text)
  szCs : Option (Option Text)
  color : Option (Option Text)
  rStyle : Option (Option Text)
deriving DecidableEq

/-- Model of _get_on_off_val (a1.py lines 99-109): absent element is off;
a present element is on unless its value is explicitly "false" (any case)
or "0".  The typed-attribute branch of get_run_formatting computes the same
condition for these toggles via the library's on/off semantics. -/
def get_on_off_val (oxml_element : Option OnOffEl) : Bool :=
  match oxml_element with
  | none => false
  | some el =>
    match el.val with
    | none => true
    | some v => if pyLower v = strFalse ∨ v = strZero then false else true

/-- The normalized style descriptor produced by get_run_formatting. -/
structure StyleInfo where
  bold : Option Bool := none
  italic : Option Bool := none
  underline : Option Bool := none
  font_name : Option Text := none
  font_size : Option Int := none
  font_color_rgb : Option Text := none
  char_style_name : Option Text := none
deriving DecidableEq

/-- Digits of a decimal literal folded to a natural number; none when the
text is empty or holds a non-digit. -/
def digitsToNat (s : Text) : Option Nat :=
  if s.isEmpty then none
  else if s.all Char.isDigit then
    some (s.foldl (fun a c => a * 10 + (c.toNat - 48)) 0)
  else none

/-- Python int(s): surrounding whitespace stripped, optional sign, decimal
digits; none when the parse fails (the code catches the error and keeps the
field unset). -/
def pyToInt (s : Text) : Option Int :=
  let t := pyStrip s
  match t with
  | [] => none
  | c :: rest =>
    if c = Char.ofNat 45 then (digitsToNat rest).map (fun n => -(n : Int))
    else if c = Char.ofNat 43 then (digitsToNat rest).map (fun n => (n : Int))
    else (digitsToNat t).map (fun n => (n : Int))

/-- First truthy value of a Python or-chain over optional strings: the first
entry that is present and non-empty. -/
def firstTruthy : List (Option Text) → Option Text
  | [] => none
  | some t :: rest => if ¬ t.isEmpty then some t else firstTruthy rest
  | none :: rest => firstTruthy rest

/-- Bold field of get_run_formatting (a1.py lines 119-127): true when the
primary or complex-script toggle is present and not explicitly off. -/
def boldVal (rPr : RPr) : Option Bool :=
  if get_on_off_val rPr.b ∨ get_on_off_val rPr.bCs then some true else none

/-- Italic field of get_run_formatting (a1.py lines 129-137). -/
def italicVal (rPr : RPr) : Option Bool :=
  if get_on_off_val rPr.i ∨ get_on_off_val rPr.iCs then some true else none

/-- Underline field (a1.py lines 139-149): set only when w:u is present with
a value other than "none" (case-insensitive). -/
def underlineVal (rPr : RPr) : Option Bool :=
  match rPr.u with
  | some el =>
    match el.val with
    | some v => if pyLower v ≠ strNone then some true else none
    | none => none
  | none => none

/-- Font-name field (a1.py lines 151-174): first non-empty of eastAsia,
ascii, hAnsi, cs. -/
def fontNameVal (rPr : RPr) : Option Text :=
  match rPr.rFonts with
  | some f => firstTruthy [f.eastAsia, f.ascii, f.hAnsi, f.cs]
  | none => none

/-- Font-size field (a1.py lines 176-197): szCs takes priority over sz when
present with a value; the attribute is parsed as an integer number of
half-points (the code stores Pt of half that number; we record the parsed
half-point integer, the unit conversion being injective); a parse failure
leaves the field unset. -/
def fontSizeVal (rPr : RPr) : Option Int :=
  let size_attr : Option Text :=
    match rPr.szCs with
    | some (some v) => some v
    | _ =>
      match rPr.sz with
      | some (some v) => some v
      | _ => none
  match size_attr with
  | some v => pyToInt v
  | none => none

/-- Font-color field (a1.py lines 199-211): the w:color val string, unless
missing, empty, or the literal "auto" (case-insensitive). -/
def fontColorVal (rPr : RPr) : Option Text :=
  match rPr.color with
  | some (some v) => if ¬ v.isEmpty ∧ pyLower v ≠ strAuto then some v else none
  | _ => none

/-- Character-style field (a1.py lines 213-224). -/
def charStyleVal (rPr : RPr) : Option Text :=
  match rPr.rStyle with
  | some (some v) => if ¬ v.isEmpty then some v else none
  | _ => none

/-- Model of get_run_formatting (a1.py lines 111-226): a missing w:rPr
yields the all-unset descriptor. -/
def get_run_formatting (rPrOpt : Option RPr) : StyleInfo :=
  match rPrOpt with
  | none => {}
  | some rPr =>
    { bold := boldVal rPr
      italic := italicVal rPr
      underline := underlineVal rPr
      font_name := fontNameVal rPr
      font_size := fontSizeVal rPr
      font_color_rgb := fontColorVal rPr
      char_style_name := charStyleVal rPr }

/-- The formatting state of an output run; fields are none until assigned. -/
structure TargetRun where
  bold : Option Bool := none
  italic : Option Bool := none
  underline : Option Bool := none
  font_name : Option Text := none
  east_asia : Option Text := none
  font_size : Option Int := none
  color_rgb : Option Text := none
  style : Option Text := none
deriving DecidableEq

/-- The hexadecimal digits. -/
def hexDigits : Text := "0123456789abcdefABCDEF".data

/-- Modelled library contract of RGBColor.from_string: succeeds exactly on a
string of hexadecimal digits (the caller has already checked the length);
on failure the code catches the error and leaves the colour unset. -/
def rgb_from_string_ok (s : Text) : Bool := s.all (fun c => hexDigits.contains c)

/-- One guarded toggle assignment of apply_run_formatting: the run attribute
is set to True only when the descriptor field is True, and otherwise kept. -/
def applyBoldField (prev v : Option Bool) : Option Bool :=
  if v = some true then some true else prev

/-- One guarded truthy string assignment of apply_run_formatting (font name). -/
def applyTruthyTextField : Option Text → Option Text → Option Text
  | prev, some f => if ¬ f.isEmpty then some f else prev
  | prev, none => prev

/-- The guarded size assignment of apply_run_formatting; a zero size is falsy
in Python and is skipped. -/
def applySizeField : Option Int → Option Int → Option Int
  | prev, some x => if x ≠ 0 then some x else prev
  | prev, none => prev

/-- The colour assignment of apply_run_formatting (a1.py lines 463-468):
a truthy value that is not "auto" nor literal black (case-insensitive), of
length 6, accepted by RGBColor.from_string; otherwise the attribute keeps
its previous value. -/
def applyColorField : Option Text → Option Text → Option Text
  | prev, some hex_color =>
    if ¬ hex_color.isEmpty ∧ pyLower hex_color ≠ strAuto ∧ pyLower hex_color ≠ strBlack then
      if hex_color.length = 6 ∧ rgb_from_string_ok hex_color then some hex_color
      else prev
    else prev
  | prev, none => prev

/-- The character-style assignment of apply_run_formatting (lines 469-474). -/
def applyStyleField (doc_styles : List Text) : Option Text → Option Text → Option Text
  | prev, some n => if ¬ n.isEmpty ∧ n ∈ doc_styles then some n else prev
  | prev, none => prev

/-- Model of apply_run_formatting (a1.py lines 457-474): the sequence of
guarded assignments, each to a distinct run attribute, expressed as one
record update; doc_styles is the target document's style set. -/
def apply_run_formatting (doc_styles : List Text) (target_run : TargetRun)
    (style_info : StyleInfo) : TargetRun :=
  { target_run with
    bold := applyBoldField target_run.bold style_info.bold
    italic := applyBoldField target_run.italic style_info.italic
    underline := applyBoldField target_run.underline style_info.underline
    font_name := applyTruthyTextField target_run.font_name style_info.font_name
    font_size := applySizeField target_run.font_size style_info.font_size
    color_rgb := applyColorField target_run.color_rgb style_info.font_color_rgb
    style := applyStyleField doc_styles target_run.style style_info.char_style_name }

/-- Lowercasing preserves length. -/
theorem pyLower_length (s : Text) : (pyLower s).length = s.length :=
  List.length_map s Char.toLower

/-- Among hexadecimal digit characters, only the digit 0 lowercases to 0. -/
theorem hex_toLower_zero : ∀ c ∈ hexDigits, Char.toLower c = Char.ofNat 48 → c = Char.ofNat 48 := by
  decide

/-- For a string of hexadecimal digits, lowercasing to literal black means
being literal black. -/
theorem hex_lower_black {s : Text} (hhex : rgb_from_string_ok s = true) :
    pyLower s = strBlack ↔ s = strBlack := by
  have hrep : strBlack = List.replicate 6 (Char.ofNat 48) := by decide
  constructor
  · intro hmap
    have hmem : ∀ c ∈ s, c ∈ hexDigits := by
      intro c hc
      have h := List.all_eq_true.mp hhex c hc
      simpa [List.contains, List.elem_iff] using h
    have hlen : s.length = 6 := by
      have h := congrArg List.length hmap
      simpa [pyLower_length, strBlack] using h
    rw [hrep, List.eq_replicate_iff]
    refine ⟨hlen, ?_⟩
    intro c hc
    have h0 : Char.toLower c ∈ pyLower s := List.mem_map_of_mem Char.toLower hc
    rw [hmap, hrep] at h0
    exact hex_toLower_zero c (hmem c hc) (List.mem_replicate.mp h0).2
  · intro h
    subst h
    decide

/-- Code-side colour acceptance equals the specified condition: a valid
six-hex-digit string that is neither literal black nor "auto". -/
theorem applyColorField_eq (prev : Option Text) (hex : Text) :
    applyColorField prev (some hex) =
      if hex.length = 6 ∧ rgb_from_string_ok hex = true ∧ hex ≠ strBlack ∧ hex ≠ strAuto
      then some hex else prev := by
  by_cases hc : hex.length = 6 ∧ rgb_from_string_ok hex = true ∧ hex ≠ strBlack ∧ hex ≠ strAuto
  · obtain ⟨hlen, hok, hblack, hauto⟩ := hc
    have hne : ¬ hex.isEmpty := by
      cases hex with
      | nil => simp at hlen
      | cons a l => simp
    have hlauto : pyLower hex ≠ strAuto := by
      intro h
      have := congrArg List.length h
      rw [pyLower_length, hlen] at this
      simp [strAuto] at this
    have hlblack : pyLower hex ≠ strBlack := by
      intro h
      exact hblack ((hex_lower_black hok).mp h)
    rw [if_pos ⟨hlen, hok, hblack, hauto⟩]
    simp only [applyColorField]
    rw [if_pos ⟨hne, hlauto, hlblack⟩, if_pos ⟨hlen, hok⟩]
  · rw [if_neg hc]
    simp only [applyColorField]
    by_cases houter : ¬ hex.isEmpty ∧ pyLower hex ≠ strAuto ∧ pyLower hex ≠ strBlack
    · rw [if_pos houter]
      by_cases hinner : hex.length = 6 ∧ rgb_from_string_ok hex = true
      · exfalso
        apply hc
        refine ⟨hinner.1, hinner.2, ?_, ?_⟩
        · intro h
          subst h
          exact houter.2.2 (by decide)
        · intro h
          subst h
          exact houter.2.1 (by decide)
      · rw [if_neg (by simpa using hinner)]
    · rw [if_neg houter]

/-- C8: for every style descriptor, the assembler assigns a font colour to
the emitted run exactly when the descriptor's colour value is a valid
six-hex-digit string that is neither literal black "000000" nor "auto"; in
every other case (missing, wrong length, non-hex, black, or auto) the run's
colour attribute keeps its previous (unset) value. -/
theorem c8_color_application (doc_styles : List Text) (target_run : TargetRun)
    (style_info : StyleInfo) :
    (apply_run_formatting doc_styles target_run style_info).color_rgb =
      match style_info.font_color_rgb with
      | some hex =>
        if hex.length = 6 ∧ rgb_from_string_ok hex = true ∧ hex ≠ strBlack ∧ hex ≠ strAuto
        then some hex else target_run.color_rgb
      | none => target_run.color_rgb := by
  cases h : style_info.font_color_rgb with
  | none => simp [apply_run_formatting, h, applyColorField]
  | some hex => simp [apply_run_formatting, h, applyColorField_eq]

/-- C9: the bold, italic and underline fields produced by get_run_formatting
are each unset or True, never False; and an on-off toggle explicitly present
with value "false" or "0" leaves the field exactly as if the toggle were
absent, so explicit off-formatting is never represented in the model. -/
theorem c9_toggle_fields (rPrOpt : Option RPr) (rPr : RPr) :
    ((get_run_formatting rPrOpt).bold ≠ some false
      ∧ (get_run_formatting rPrOpt).italic ≠ some false
      ∧ (get_run_formatting rPrOpt).underline ≠ some false)
    ∧ (get_run_formatting (some { rPr with b := some ⟨some strFalse⟩ })
          = get_run_formatting (some { rPr with b := none })
        ∧ get_run_formatting (some { rPr with b := some ⟨some strZero⟩ })
          = get_run_formatting (some { rPr with b := none }))
    ∧ (get_run_formatting (some { rPr with bCs := some ⟨some strFalse⟩ })
          = get_run_formatting (some { rPr with bCs := none })
        ∧ get_run_formatting (some { rPr with bCs := some ⟨some strZero⟩ })
          = get_run_formatting (some { rPr with bCs := none }))
    ∧ (get_run_formatting (some { rPr with i := some ⟨some strFalse⟩ })
          = get_run_formatting (some { rPr with i := none })
        ∧ get_run_formatting (some { rPr with i := some ⟨some strZero⟩ })
          = get_run_formatting (some { rPr with i := none }))
    ∧ (get_run_formatting (some { rPr with iCs := some ⟨some strFalse⟩ })
          = get_run_formatting (some { rPr with iCs := none })
        ∧ get_run_formatting (some { rPr with iCs := some ⟨some strZero⟩ })
          = get_run_formatting (some { rPr with iCs := none })) := by
  have hoffF : get_on_off_val (some ⟨some strFalse⟩) = false := by decide
  have hoffZ : get_on_off_val (some ⟨some strZero⟩) = false := by decide
  have hoffN : get_on_off_val none = false := rfl
  refine ⟨?_, ?_, ?_, ?_, ?_⟩
  · cases rPrOpt with
    | none => simp [get_run_formatting]
    | some rPr' =>
      refine ⟨?_, ?_, ?_⟩
      · simp only [get_run_formatting, boldVal]
        split <;> simp
      · simp only [get_run_formatting, italicVal]
        split <;> simp
      · simp only [get_run_formatting, underlineVal]
        rcases rPr'.u with - | ⟨val⟩
        · simp
        · rcases val with - | v
          · simp
          · simp only []
            split <;> simp
  all_goals constructor <;>
    simp [get_run_formatting, boldVal, italicVal, underlineVal, fontNameVal,
      fontSizeVal, fontColorVal, charStyleVal, hoffF, hoffZ, hoffN]

/-- A sentence tokenizer that always fails, selecting the chunker's
fallback path. -/
def tokNoneFn : Text → Option (List Text) := fun _ => none

/-- A two-character test text. -/
def strHi : Text := "hi".data

/-- A test text with leading whitespace. -/
def strSpaceA : Text := " a".data

/-- A test text with an interior space. -/
def strASpaceB : Text := "a b".data

/-- C6 counterexample: for a short text with leading whitespace the chunker
returns the text itself, not the stripped text the claim specifies. -/
theorem c6_counterexample :
    split_text_into_chunks tokNoneFn strSpaceA 5 ≠ [pyStrip strSpaceA] := by
  decide

/-- C6 (amended): for every text whose length is at most maxChars, split
returns exactly one chunk equal to the input itself, unstripped, when the
text is non-blank, and an empty sequence when the text is blank. -/
theorem c6_short_text_amended (sentTokenize : Text → Option (List Text))
    (long_text : Text) (max_chars : Nat) (h : long_text.length ≤ max_chars) :
    split_text_into_chunks sentTokenize long_text max_chars =
      if (pyStrip long_text).isEmpty then [] else [long_text] := by
  unfold split_text_into_chunks
  rw [if_pos h]

/-- Witness for the amended C6 at a concrete short non-blank text. -/
theorem c6_short_text_amended_witness :
    strHi.length ≤ 5 ∧ split_text_into_chunks tokNoneFn strHi 5 = [strHi] :=
  ⟨by decide, (c6_short_text_amended tokNoneFn strHi 5 (by decide)).trans (by decide)⟩

/-- C7 counterexample: on the fallback path (sentence segmentation failed)
the fixed-width slices are not filtered, and a blank chunk is returned. -/
theorem c7_counterexample :
    strSpace ∈ split_text_into_chunks tokNoneFn strASpaceB 1
      ∧ (pyStrip strSpace).isEmpty = true := by
  decide

/-- C7 (amended): for every input text and positive maxChars, every chunk
returned by split is non-blank, except on the fallback path taken when
sentence segmentation fails, whose fixed-width slices are not filtered:
when the text fits in one chunk or the tokenizer succeeds, every returned
chunk contains a non-whitespace character. -/
theorem c7_nonblank_chunks_amended (sentTokenize : Text → Option (List Text))
    (long_text : Text) (max_chars : Nat) (hpos : 0 < max_chars)
    (hpath : long_text.length ≤ max_chars ∨ sentTokenize long_text ≠ none) :
    ∀ s ∈ split_text_into_chunks sentTokenize long_text max_chars,
      (pyStrip s).isEmpty = false := by
  intro s hs
  unfold split_text_into_chunks at hs
  by_cases hlen : long_text.length ≤ max_chars
  · rw [if_pos hlen] at hs
    by_cases hblank : (pyStrip long_text).isEmpty
    · rw [if_pos hblank] at hs
      simp at hs
    · rw [if_neg hblank] at hs
      simp only [List.mem_singleton] at hs
      subst hs
      simpa using hblank
  · rw [if_neg hlen] at hs
    rcases hpath with hpath | hpath
    · exact absurd hpath hlen
    · cases htok : sentTokenize long_text with
      | none => exact absurd htok hpath
      | some sentences =>
        rw [htok] at hs
        have h2 := (List.mem_filter.mp hs).2
        simpa using h2

/-- Witness for the amended C7 at a concrete short text. -/
theorem c7_nonblank_chunks_amended_witness :
    (0 < 5 ∧ strHi.length ≤ 5 ∧ strHi ∈ split_text_into_chunks tokNoneFn strHi 5)
      ∧ (pyStrip strHi).isEmpty = false :=
  ⟨⟨by decide, by decide, by decide⟩,
    c7_nonblank_chunks_amended tokNoneFn strHi 5 (by decide) (Or.inl (by decide))
      strHi (by decide)⟩

/-- The configured maximum chunk size (a1.py line 53). -/
def MAX_CHARS_PER_TRANSLATE_CHUNK : Nat := 1800

/-- The error-marker leader of every failure string returned by the
translation backend wrapper translate_text_qianwen. -/
def strTransMark : Text := "[Translation".data

/-- The failure placeholder leader, with its trailing space. -/
def strFailHead : Text := "[翻译失败: ".data

/-- The failure placeholder leader without the trailing space. -/
def strFailMark : Text := "[翻译失败:".data

/-- The failure placeholder trailer. -/
def strDots : Text := "...]".data

/-- The inline failure placeholder substituted for a failed chunk
(a1.py line 657): the marker, the first 30 characters of the source chunk,
and an ellipsis. -/
def fail_placeholder (chunk : Text) : Text :=
  strFailHead ++ chunk.take 30 ++ strDots

/-- One loop iteration of process_and_translate_block (a1.py lines 651-657):
the backend's result is kept only when it is truthy and does not start with
"[Translation"; otherwise the failure placeholder is substituted.  The
backend is a function returning none for Python None. -/
def chunk_result (translateFn : Text → Option Text) (chunk : Text) : Text :=
  match translateFn chunk with
  | some translated_chunk =>
    if ¬ translated_chunk.isEmpty ∧ ¬ pyStartsWith strTransMark translated_chunk
    then translated_chunk
    else fail_placeholder chunk
  | none => fail_placeholder chunk

/-- Model of process_and_translate_block (a1.py lines 648-658): chunk the
unit's text, translate each chunk, substitute placeholders for failures,
join the non-empty outputs with single spaces and strip. -/
def process_and_translate_block (sentTokenize : Text → Option (List Text))
    (translateFn : Text → Option Text) (text_block : Text) : Text :=
  pyStrip (List.intercalate strSpace
    (((split_text_into_chunks sentTokenize text_block MAX_CHARS_PER_TRANSLATE_CHUNK).map
        (chunk_result translateFn)).filter (fun c => !c.isEmpty)))

/-- A chunk fails when the backend returns Python None, an empty string, or
one of its own bracketed error strings (all of which start "[Translation"). -/
def chunk_failed (translateFn : Text → Option Text) (chunk : Text) : Prop :=
  translateFn chunk = none ∨ translateFn chunk = some []
    ∨ ∃ t, translateFn chunk = some t ∧ pyStartsWith strTransMark t = true

/-- The per-chunk output is never the empty string: an accepted translation
is non-empty by the acceptance guard, and the placeholder is non-empty. -/
theorem chunk_result_ne_nil (translateFn : Text → Option Text) (chunk : Text) :
    chunk_result translateFn chunk ≠ [] := by
  cases ht : translateFn chunk with
  | none => simp [chunk_result, ht, fail_placeholder, strFailHead]
  | some t =>
    simp only [chunk_result, ht]
    split
    · rename_i h
      simpa using h.1
    · simp [fail_placeholder, strFailHead]

/-- A list starts with itself prepended to anything. -/
theorem pyStartsWith_append (p t : Text) : pyStartsWith p (p ++ t) = true := by
  unfold pyStartsWith
  rw [List.take_left]
  exact beq_self_eq_true p

/-- C3: for every translation unit text and every translate function, each
failing chunk (backend None, empty response, or backend error string) is
replaced by the failure placeholder and every other chunk keeps the
backend's text; the unit's value is the outputs of all chunks — none is
dropped, so no chunk failure aborts the unit — joined with single spaces
and stripped. -/
theorem c3_chunk_failure_isolation (sentTokenize : Text → Option (List Text))
    (translateFn : Text → Option Text) (text_block : Text) :
    (process_and_translate_block sentTokenize translateFn text_block
        = pyStrip (List.intercalate strSpace
            ((split_text_into_chunks sentTokenize text_block MAX_CHARS_PER_TRANSLATE_CHUNK).map
              (chunk_result translateFn))))
      ∧ (∀ chunk, chunk_failed translateFn chunk →
          chunk_result translateFn chunk = fail_placeholder chunk)
      ∧ (∀ chunk, ¬ chunk_failed translateFn chunk →
          translateFn chunk = some (chunk_result translateFn chunk)) := by
  refine ⟨?_, ?_, ?_⟩
  · unfold process_and_translate_block
    have hfil : ((split_text_into_chunks sentTokenize text_block
        MAX_CHARS_PER_TRANSLATE_CHUNK).map (chunk_result translateFn)).filter
          (fun c => !c.isEmpty)
        = (split_text_into_chunks sentTokenize text_block
            MAX_CHARS_PER_TRANSLATE_CHUNK).map (chunk_result translateFn) := by
      rw [List.filter_eq_self]
      intro a ha
      rcases List.mem_map.mp ha with ⟨c, -, rfl⟩
      simpa using chunk_result_ne_nil translateFn c
    rw [hfil]
  · intro chunk hfail
    unfold chunk_result
    rcases hfail with h | h | ⟨t, h, hpre⟩
    · rw [h]
    · rw [h]
      simp
    · rw [h]
      simp [hpre]
  · intro chunk hok
    unfold chunk_failed at hok
    push_neg at hok
    obtain ⟨h1, h2, h3⟩ := hok
    cases ht : translateFn chunk with
    | none => exact absurd ht h1
    | some t =>
      simp only [chunk_result, ht]
      have hne : ¬ t.isEmpty := by
        intro he
        exact h2 (by rw [ht, List.isEmpty_iff.mp he])
      have hnp : ¬ pyStartsWith strTransMark t = true := fun hp => h3 t ht hp
      rw [if_pos ⟨hne, by simpa using hnp⟩]

/-- A backend stub that always returns Python None. -/
def trNoneFn : Text → Option Text := fun _ => none

/-- A three-character test chunk. -/
def strAbc : Text := "abc".data

/-- Witness for C3: a concrete failing chunk is replaced by its placeholder. -/
theorem c3_chunk_failure_isolation_witness :
    chunk_failed trNoneFn strAbc
      ∧ chunk_result trNoneFn strAbc = fail_placeholder strAbc :=
  ⟨Or.inl rfl, (c3_chunk_failure_isolation tokNoneFn trNoneFn strAbc).2.1 strAbc (Or.inl rfl)⟩

/-- C10: the per-chunk acceptance filter keeps the backend's returned text
exactly when it is non-empty and does not start with the literal
"[Translation"; any result with that leading marker — even a genuine
translation — is replaced by the failure placeholder, which begins with
"[翻译失败:" and embeds the first 30 characters of the source chunk. -/
theorem c10_acceptance_filter (translateFn : Text → Option Text) (chunk : Text) :
    (∀ t, translateFn chunk = some t → t.isEmpty = false →
        pyStartsWith strTransMark t = false → chunk_result translateFn chunk = t)
      ∧ (∀ t, translateFn chunk = some t → pyStartsWith strTransMark t = true →
          chunk_result translateFn chunk = fail_placeholder chunk)
      ∧ (fail_placeholder chunk = strFailMark ++ (strSpace ++ chunk.take 30 ++ strDots)
          ∧ pyStartsWith strFailMark (fail_placeholder chunk) = true)
      ∧ (∃ pre post, fail_placeholder chunk = pre ++ chunk.take 30 ++ post) := by
  have hdecomp : fail_placeholder chunk
      = strFailMark ++ (strSpace ++ chunk.take 30 ++ strDots) := by
    unfold fail_placeholder
    have hhead : strFailHead = strFailMark ++ strSpace := by decide
    rw [hhead]
    simp [List.append_assoc]
  refine ⟨?_, ?_, ⟨hdecomp, ?_⟩, ⟨strFailHead, strDots, rfl⟩⟩
  · intro t ht hne hnp
    simp only [chunk_result, ht]
    rw [if_pos ⟨by simp [hne], by simp [hnp]⟩]
  · intro t ht hp
    simp only [chunk_result, ht]
    rw [if_neg (fun hcond => absurd hp hcond.2)]
  · rw [hdecomp]
    exact pyStartsWith_append strFailMark (strSpace ++ chunk.take 30 ++ strDots)

/-- A backend stub whose result always begins with the error marker. -/
def trMarkFn : Text → Option Text := fun _ => some strTransMark

/-- Witness for C10: a returned text beginning "[Translation" is discarded
and replaced by the placeholder at a concrete chunk. -/
theorem c10_acceptance_filter_witness :
    trMarkFn strAbc = some strTransMark
      ∧ chunk_result trMarkFn strAbc = fail_placeholder strAbc :=
  ⟨rfl, (c10_acceptance_filter trMarkFn strAbc).2.1 strTransMark rfl (by decide)⟩

/-- An extracted embedded image: its binary payload, optional declared
extents (EMU), and original filename (used only to detect legacy vector
formats, which the code embeds as-is). -/
structure ImageData where
  blob : List Nat
  width : Option Int
  height : Option Int
  filename : Text
deriving DecidableEq

/-- A content item of a parsed paragraph: a text run with its style
descriptor, or an extracted image. -/
inductive ContentItem where
  | text (t : Text) (style_info : StyleInfo)
  | image (img : ImageData)
deriving DecidableEq

/-- The result of _parse_single_paragraph_content (a1.py lines 340-398). -/
structure ParsedPara where
  content_items : List ContentItem
  text_to_translate : Text
  paragraph_style_name : Option Text
  paragraph_alignment : Option Int
deriving DecidableEq

/-- A top-level paragraph block: the parsed paragraph plus its translation
slot (a1.py line 407). -/
structure ParagraphBlock where
  para : ParsedPara
  translation : Option Text
deriving DecidableEq

/-- A parsed table cell (a1.py lines 443-445). -/
structure CellData where
  paragraphs_data : List ParsedPara
  full_cell_text_to_translate : Text
  translation : Option Text
  grid_span : Nat
  v_merge : Option Text
deriving DecidableEq

/-- A parsed table row. -/
structure RowData where
  cells : List CellData
deriving DecidableEq

/-- A parsed table block (a1.py lines 413-451). -/
structure TableBlock where
  rows : List RowData
  style_name : Option Text
  max_cols : Nat
deriving DecidableEq

/-- A block of the built document model: paragraph or table, in source
document order. -/
inductive Block where
  | paragraph (p : ParagraphBlock)
  | table (t : TableBlock)
deriving DecidableEq

/-- A source run, through the library interface the parser uses: the texts
of its w:t children, its optional w:rPr, and the outcome of image detection
and extraction — none when no drawing/imagedata element is found, some none
when one is found but the relationship lookup or extraction fails (the image
is then skipped and logged), and some (some img) on success. -/
structure SourceRun where
  texts : List Text
  rPr : Option RPr
  imageResult : Option (Option ImageData)
deriving DecidableEq

/-- A source paragraph: its runs, library-reported style name and
alignment. -/
structure SourcePara where
  runs : List SourceRun
  style_name : Option Text
  alignment : Option Int
deriving DecidableEq

/-- The w:tcPr element of a source cell: optional gridSpan child (with its
optional integer val) and optional vMerge child (with its optional val). -/
structure TcPr where
  gridSpan : Option (Option Nat)
  vMerge : Option (Option Text)
deriving DecidableEq

/-- A source table cell: its paragraphs and cell properties. -/
structure SourceCell where
  paragraphs : List SourcePara
  tcPr : Option TcPr
deriving DecidableEq

/-- A source table row, with its cells as enumerated by the library. -/
structure SourceRow where
  cells : List SourceCell
deriving DecidableEq

/-- A source table: its rows, library-reported style name, and the nominal
column count len(table.columns) (0 when the grid declares no columns). -/
structure SourceTable where
  rows : List SourceRow
  style_name : Option Text
  nominal_cols : Nat
deriving DecidableEq

/-- A body-level source block, in document order as returned by the
parser's XPath over body paragraphs (outside tables) and tables. -/
inductive SourceBlock where
  | p (sp : SourcePara)
  | tbl (st : SourceTable)
deriving DecidableEq

/-- The text of a run: the concatenation of its w:t texts. -/
def run_text (r : SourceRun) : Text :=
  r.texts.foldl (fun a t => a ++ t) []

/-- Python truthiness of an optional style name: None and the empty string
are falsy and normalise to an unset name. -/
def norm_opt_name (o : Option Text) : Option Text :=
  match o with
  | some s => if s.isEmpty then none else some s
  | none => none

/-- Model of _parse_single_paragraph_content (a1.py lines 340-398): for each
run in order, append the extracted image (when detection and extraction
succeed) and then the run's text item when the text is non-empty; the
aggregated translation text joins the non-empty run texts. -/
def parse_single_paragraph_content (p_obj : SourcePara) : ParsedPara :=
  let r := p_obj.runs.foldl (fun (acc : List ContentItem × List Text) r_element =>
    let current_run_text := run_text r_element
    let run_style_info := get_run_formatting r_element.rPr
    let withImage :=
      match r_element.imageResult with
      | some (some image_details) => acc.1 ++ [ContentItem.image image_details]
      | _ => acc.1
    if ¬ current_run_text.isEmpty then
      (withImage ++ [ContentItem.text current_run_text run_style_info],
        acc.2 ++ [current_run_text])
    else (withImage, acc.2)) ([], [])
  { content_items := r.1
    text_to_translate := r.2.foldl (fun a t => a ++ t) []
    paragraph_style_name := norm_opt_name p_obj.style_name
    paragraph_alignment := p_obj.alignment }

/-- The library's paragraph text: concatenation of the run texts. -/
def para_text (sp : SourcePara) : Text :=
  sp.runs.foldl (fun a r => a ++ run_text r) []

/-- The library's cell text: its paragraphs' texts joined with newlines. -/
def cell_full_text (c : SourceCell) : Text :=
  List.intercalate strNL (c.paragraphs.map para_text)

/-- The cell's grid span (a1.py lines 431-435): gridSpan val when present,
else 1. -/
def cell_grid_span (c : SourceCell) : Nat :=
  match c.tcPr with
  | none => 1
  | some pr =>
    match pr.gridSpan with
    | none => 1
    | some none => 1
    | some (some v) => v

/-- The cell's vertical-merge state (a1.py lines 437-441): the vMerge val
when present, "continue" when the element is present without a val, and
unset when the element is absent. -/
def cell_v_merge (c : SourceCell) : Option Text :=
  match c.tcPr with
  | none => none
  | some pr =>
    match pr.vMerge with
    | none => none
    | some none => some strContinue
    | some (some v) => some v

/-- Model of the cell-parsing loop (a1.py lines 422-445): keep each inner
paragraph with content or non-blank text (collecting its text), and keep one
placeholder empty paragraph when the list is still empty and the whole
cell's text is blank. -/
def parse_cell (cell_obj : SourceCell) : CellData :=
  let fold := cell_obj.paragraphs.foldl (fun (acc : List ParsedPara × List Text) p_in_cell =>
    let parsed := parse_single_paragraph_content p_in_cell
    if ¬ parsed.content_items.isEmpty ∨ ¬ (pyStrip parsed.text_to_translate).isEmpty then
      (acc.1 ++ [parsed], acc.2 ++ [parsed.text_to_translate])
    else if acc.1.isEmpty ∧ (pyStrip (cell_full_text cell_obj)).isEmpty then
      (acc.1 ++ [parsed], acc.2)
    else acc) ([], [])
  { paragraphs_data := fold.1
    full_cell_text_to_translate := fold.2.foldl (fun a t => a ++ t) []
    translation := none
    grid_span := cell_grid_span cell_obj
    v_merge := cell_v_merge cell_obj }

/-- A parsed row: its cells in order. -/
def parse_row (row_obj : SourceRow) : RowData :=
  ⟨row_obj.cells.map parse_cell⟩

/-- The running span total of a row (a1.py line 447). -/
def row_span_sum (r : RowData) : Nat :=
  r.cells.foldl (fun s c => s + c.grid_span) 0

/-- Model of the table branch of parse_docx_for_translation (a1.py lines
411-451): rows parsed in order; max_cols is the largest per-row span total
when positive, else the nominal column count. -/
def parse_table (table_obj : SourceTable) : TableBlock :=
  let rows := table_obj.rows.map parse_row
  let max_cols_actual :=
    rows.foldl (fun m r => if m < row_span_sum r then row_span_sum r else m) 0
  { rows := rows
    style_name := norm_opt_name table_obj.style_name
    max_cols := if 0 < max_cols_actual then max_cols_actual else table_obj.nominal_cols }

/-- One iteration of the top-level loop of parse_docx_for_translation
(a1.py lines 403-452): append each table, and each paragraph that has
content items or non-blank text. -/
def parse_step (parsed_document_structure : List Block) (block_element : SourceBlock) :
    List Block :=
  match block_element with
  | .p sp =>
    let parsed_para_data := parse_single_paragraph_content sp
    if ¬ parsed_para_data.content_items.isEmpty
        ∨ ¬ (pyStrip parsed_para_data.text_to_translate).isEmpty then
      parsed_document_structure ++ [Block.paragraph ⟨parsed_para_data, none⟩]
    else parsed_document_structure
  | .tbl st => parsed_document_structure ++ [Block.table (parse_table st)]

/-- Model of parse_docx_for_translation (a1.py lines 401-453): walk the
body-level blocks in order, accumulating the parsed structure. -/
def parse_docx_for_translation (source_doc : List SourceBlock) : List Block :=
  source_doc.foldl parse_step []

/-- Per-block view of the builder, used to characterise its output: a kept
paragraph or table, or none for a dropped empty paragraph. -/
def parse_block (block_element : SourceBlock) : Option Block :=
  match block_element with
  | .p sp =>
    let parsed_para_data := parse_single_paragraph_content sp
    if ¬ parsed_para_data.content_items.isEmpty
        ∨ ¬ (pyStrip parsed_para_data.text_to_translate).isEmpty then
      some (Block.paragraph ⟨parsed_para_data, none⟩)
    else none
  | .tbl st => some (Block.table (parse_table st))

/-- One parser step appends exactly the kept block of the source block. -/
theorem parse_step_eq (acc : List Block) (b : SourceBlock) :
    parse_step acc b = acc ++ (parse_block b).toList := by
  cases b with
  | p sp =>
    simp only [parse_step, parse_block]
    split
    · simp
    · simp
  | tbl st => simp [parse_step, parse_block]

/-- The built model is the order-preserving image of the kept source
blocks. -/
theorem parse_docx_eq_filterMap (source_doc : List SourceBlock) :
    parse_docx_for_translation source_doc = source_doc.filterMap parse_block := by
  suffices h : ∀ (src : List SourceBlock) (acc : List Block),
      src.foldl parse_step acc = acc ++ src.filterMap parse_block by
    simpa using h source_doc []
  intro src
  induction src with
  | nil => intro acc; simp
  | cons b bs ih =>
    intro acc
    rw [List.foldl_cons, ih, parse_step_eq, List.filterMap_cons]
    cases hb : parse_block b with
    | none => simp
    | some blk => simp

/-- C5: every paragraph block of the built model has at least one content
item or non-blank aggregated text; a top-level paragraph with neither is
dropped by the builder and never appears in the block sequence. -/
theorem c5_no_empty_paragraph_blocks (source_doc : List SourceBlock)
    (pb : ParagraphBlock)
    (h : Block.paragraph pb ∈ parse_docx_for_translation source_doc) :
    ¬ pb.para.content_items.isEmpty ∨ ¬ (pyStrip pb.para.text_to_translate).isEmpty := by
  rw [parse_docx_eq_filterMap] at h
  rcases List.mem_filterMap.mp h with ⟨sb, -, hsb⟩
  cases sb with
  | p sp =>
    simp only [parse_block] at hsb
    split at hsb
    · rename_i hcond
      obtain rfl : (⟨parse_single_paragraph_content sp, none⟩ : ParagraphBlock) = pb := by
        simpa using hsb
      exact hcond
    · simp at hsb
  | tbl st => simp [parse_block] at hsb

/-- A one-run source paragraph carrying the text "hi". -/
def srcParaHi : SourcePara := ⟨[⟨[strHi], none, none⟩], none, none⟩

/-- A one-paragraph source document. -/
def srcDocHi : List SourceBlock := [SourceBlock.p srcParaHi]

/-- The paragraph block the builder produces for srcParaHi. -/
def pbHi : ParagraphBlock := ⟨parse_single_paragraph_content srcParaHi, none⟩

/-- Witness for C5 at a concrete one-paragraph document. -/
theorem c5_no_empty_paragraph_blocks_witness :
    Block.paragraph pbHi ∈ parse_docx_for_translation srcDocHi
      ∧ (¬ pbHi.para.content_items.isEmpty
          ∨ ¬ (pyStrip pbHi.para.text_to_translate).isEmpty) :=
  ⟨by decide, c5_no_empty_paragraph_blocks srcDocHi pbHi (by decide)⟩

/-- The claim-side span total of a source row: the sum of its cells'
grid-span values. -/
def src_row_span_sum (r : SourceRow) : Nat :=
  r.cells.foldl (fun s c => s + cell_grid_span c) 0

/-- The claim-side column count: the maximum over all rows of the row span
total. -/
def max_row_span_total (st : SourceTable) : Nat :=
  (st.rows.map src_row_span_sum).foldl Nat.max 0

/-- The parser's loop keeps the source cell spans. -/
theorem row_span_sum_parse (r : SourceRow) :
    row_span_sum (parse_row r) = src_row_span_sum r := by
  unfold row_span_sum parse_row src_row_span_sum
  rw [List.foldl_map]
  have hspan : ∀ c, (parse_cell c).grid_span = cell_grid_span c := fun c => rfl
  simp only [hspan]

/-- The loop's running-maximum update is the max operation. -/
theorem if_lt_eq_max (m x : Nat) : (if m < x then x else m) = Nat.max m x := by
  rcases Nat.lt_or_ge m x with h | h
  · rw [if_pos h]
    exact (Nat.max_eq_right h.le).symm
  · rw [if_neg (Nat.not_lt.mpr h)]
    exact (Nat.max_eq_left h).symm

/-- The running-maximum fold is the fold of max. -/
theorem foldl_if_max {α : Type} (f : α → Nat) (l : List α) (m : Nat) :
    l.foldl (fun m x => if m < f x then f x else m) m
      = l.foldl (fun m x => Nat.max m (f x)) m := by
  induction l generalizing m with
  | nil => rfl
  | cons x xs ih =>
    simp only [List.foldl_cons]
    rw [if_lt_eq_max, ih]

/-- C4 counterexample: for a table with no rows the recorded column count is
the nominal source column count, not the (zero) maximum over rows of the row
span totals. -/
theorem c4_counterexample :
    (parse_table ⟨[], none, 3⟩).max_cols ≠ max_row_span_total ⟨[], none, 3⟩ := by
  decide

/-- C4 (amended): whenever the maximum over rows of the sum of cell
grid-span values is positive — in particular for every table with at least
one row of cells with positive spans — the recorded column count equals that
maximum; when the maximum is zero the nominal source column count is kept. -/
theorem c4_max_cols_amended (table_obj : SourceTable)
    (h : 0 < max_row_span_total table_obj) :
    (parse_table table_obj).max_cols = max_row_span_total table_obj := by
  have hval : (parse_table table_obj).max_cols =
      if 0 < max_row_span_total table_obj then max_row_span_total table_obj
      else table_obj.nominal_cols := by
    simp only [parse_table, List.foldl_map]
    have hrw : ∀ r, row_span_sum (parse_row r) = src_row_span_sum r := row_span_sum_parse
    simp only [hrw]
    rw [foldl_if_max src_row_span_sum]
    simp only [max_row_span_total, List.foldl_map]
  rw [hval, if_pos h]

/-- A one-row, one-cell source table with nominal column count zero. -/
def stOneCell : SourceTable := ⟨[⟨[⟨[], none⟩]⟩], none, 0⟩

/-- Witness for the amended C4 at a concrete one-cell table. -/
theorem c4_max_cols_amended_witness :
    0 < max_row_span_total stOneCell
      ∧ (parse_table stOneCell).max_cols = max_row_span_total stOneCell :=
  ⟨by decide, c4_max_cols_amended stOneCell (by decide)⟩

/-- The identity of a translation slot in the block sequence: a top-level
paragraph's slot, or the slot of cell c of row r of the table at a block
index.  Python reaches slots through object references; the model addresses
the same nodes by their structural path. -/
inductive Slot where
  | para (i : Nat)
  | cell (i r c : Nat)
deriving DecidableEq

/-- Re-address a slot across one leading block. -/
def shiftSlot : Slot → Slot
  | .para i => .para (i + 1)
  | .cell i r c => .cell (i + 1) r c

/-- The cell tasks of one row, in cell order (a1.py lines 637-640): one task
per cell with non-blank aggregated text, addressed by cell index. -/
def tasks_of_cells : List CellData → List (Nat × Text)
  | [] => []
  | c :: cs =>
    (if (pyStrip c.full_cell_text_to_translate).isEmpty then []
     else [(0, c.full_cell_text_to_translate)])
      ++ (tasks_of_cells cs).map (fun p => (p.1 + 1, p.2))

/-- The cell tasks of a table, row-major (a1.py lines 637-640). -/
def tasks_of_rows : List RowData → List ((Nat × Nat) × Text)
  | [] => []
  | r :: rs =>
    (tasks_of_cells r.cells).map (fun p => ((0, p.1), p.2))
      ++ (tasks_of_rows rs).map (fun p => ((p.1.1 + 1, p.1.2), p.2))

/-- The tasks contributed by one block (a1.py lines 633-640): one per
non-blank paragraph, one per non-blank table cell. -/
def tasks_of_block : Block → List (Slot × Text)
  | .paragraph pb =>
    if (pyStrip pb.para.text_to_translate).isEmpty then []
    else [(Slot.para 0, pb.para.text_to_translate)]
  | .table tb => (tasks_of_rows tb.rows).map (fun p => (Slot.cell 0 p.1.1 p.1.2, p.2))

/-- Model of the task-collection loop of translate_document_main_flow
(a1.py lines 632-640): tasks in model order, each holding the text to
translate and the address of its target slot. -/
def collect_tasks : List Block → List (Slot × Text)
  | [] => []
  | b :: bs => tasks_of_block b ++ (collect_tasks bs).map (fun p => (shiftSlot p.1, p.2))

/-- Store a result into the translation slot of the cell at an index. -/
def write_cell : List CellData → Nat → Text → List CellData
  | [], _, _ => []
  | c :: cs, 0, t => { c with translation := some t } :: cs
  | c :: cs, n + 1, t => c :: write_cell cs n t

/-- Store a result into the slot of cell c of the row at an index. -/
def write_row : List RowData → Nat → Nat → Text → List RowData
  | [], _, _, _ => []
  | r :: rs, 0, c, t => { r with cells := write_cell r.cells c t } :: rs
  | r :: rs, n + 1, c, t => r :: write_row rs n c t

/-- Model of one write-back task['target']['translation'] = result
(a1.py line 671): store the result into the addressed slot. -/
def apply_write : List Block → Slot → Text → List Block
  | [], _, _ => []
  | b :: bs, .para 0, t =>
    (match b with
     | .paragraph pb => Block.paragraph { pb with translation := some t }
     | .table tb => Block.table tb) :: bs
  | b :: bs, .cell 0 r c, t =>
    (match b with
     | .paragraph pb => Block.paragraph pb
     | .table tb => Block.table { tb with rows := write_row tb.rows r c t }) :: bs
  | b :: bs, .para (i + 1), t => b :: apply_write bs (.para i) t
  | b :: bs, .cell (i + 1) r c, t => b :: apply_write bs (.cell i r c) t

/-- Model of the translation stage of translate_document_main_flow
(a1.py lines 630-671): collect the tasks in model order, translate the
collected texts (executor.map returns results in input order), and write the
i-th result into the i-th task's slot. -/
def run_translation_scheduler (sentTokenize : Text → Option (List Text))
    (translateFn : Text → Option Text) (blocks : List Block) : List Block :=
  let tasks_to_translate := collect_tasks blocks
  let translated_texts := tasks_to_translate.map
    (fun task => process_and_translate_block sentTokenize translateFn task.2)
  (List.zip tasks_to_translate translated_texts).foldl
    (fun acc pr => apply_write acc pr.1.1 pr.2) blocks

/-- Pointwise specification of the scheduler on one cell: a non-blank cell
receives the translation of its own aggregated text, a blank cell is
untouched. -/
def fill_cell (g : Text → Text) (c : CellData) : CellData :=
  if (pyStrip c.full_cell_text_to_translate).isEmpty then c
  else { c with translation := some (g c.full_cell_text_to_translate) }

/-- Pointwise specification on one row. -/
def fill_row (g : Text → Text) (r : RowData) : RowData :=
  ⟨r.cells.map (fill_cell g)⟩

/-- Pointwise specification on one block. -/
def fill_block (g : Text → Text) : Block → Block
  | .paragraph pb =>
    if (pyStrip pb.para.text_to_translate).isEmpty then .paragraph pb
    else .paragraph { pb with translation := some (g pb.para.text_to_translate) }
  | .table tb => .table { tb with rows := tb.rows.map (fill_row g) }

/-- Writing at a successor cell index skips the head cell. -/
theorem write_cell_succ (c : CellData) (cs : List CellData) (n : Nat) (t : Text) :
    write_cell (c :: cs) (n + 1) t = c :: write_cell cs n t := rfl

/-- Writing at a successor row index skips the head row. -/
theorem write_row_succ (r : RowData) (rs : List RowData) (n c : Nat) (t : Text) :
    write_row (r :: rs) (n + 1) c t = r :: write_row rs n c t := rfl

/-- Writing through a shifted slot skips the head block. -/
theorem apply_write_shift (b : Block) (bs : List Block) (s : Slot) (t : Text) :
    apply_write (b :: bs) (shiftSlot s) t = b :: apply_write bs s t := by
  cases s <;> rfl

/-- Folding cell writes with shifted indices over a non-empty cell list
leaves the head cell alone. -/
theorem foldl_write_cell_shift (g : Text → Text) (l : List (Nat × Text))
    (c : CellData) (cs : List CellData) :
    (l.map (fun p => (p.1 + 1, p.2))).foldl
        (fun acc p => write_cell acc p.1 (g p.2)) (c :: cs)
      = c :: l.foldl (fun acc p => write_cell acc p.1 (g p.2)) cs := by
  induction l generalizing c cs with
  | nil => rfl
  | cons p ps ih =>
    simp only [List.map_cons, List.foldl_cons, write_cell_succ]
    exact ih c (write_cell cs p.1 (g p.2))

/-- Folding row writes with shifted row indices over a non-empty row list
leaves the head row alone. -/
theorem foldl_write_row_shift (g : Text → Text) (l : List ((Nat × Nat) × Text))
    (r : RowData) (rs : List RowData) :
    (l.map (fun p => ((p.1.1 + 1, p.1.2), p.2))).foldl
        (fun acc p => write_row acc p.1.1 p.1.2 (g p.2)) (r :: rs)
      = r :: l.foldl (fun acc p => write_row acc p.1.1 p.1.2 (g p.2)) rs := by
  induction l generalizing r rs with
  | nil => rfl
  | cons p ps ih =>
    simp only [List.map_cons, List.foldl_cons, write_row_succ]
    exact ih r (write_row rs p.1.1 p.1.2 (g p.2))

/-- Folding writes through shifted slots over a non-empty block list leaves
the head block alone. -/
theorem foldl_apply_write_shift (g : Text → Text) (l : List (Slot × Text))
    (b : Block) (bs : List Block) :
    (l.map (fun p => (shiftSlot p.1, p.2))).foldl
        (fun acc p => apply_write acc p.1 (g p.2)) (b :: bs)
      = b :: l.foldl (fun acc p => apply_write acc p.1 (g p.2)) bs := by
  induction l generalizing b bs with
  | nil => rfl
  | cons p ps ih =>
    simp only [List.map_cons, List.foldl_cons, apply_write_shift]
    exact ih b (apply_write bs p.1 (g p.2))

/-- Folding the cell tasks of a cell list over that list translates each
non-blank cell in place. -/
theorem tasks_of_cells_fold (g : Text → Text) (cells : List CellData) :
    (tasks_of_cells cells).foldl (fun acc p => write_cell acc p.1 (g p.2)) cells
      = cells.map (fill_cell g) := by
  induction cells with
  | nil => rfl
  | cons c cs ih =>
    simp only [tasks_of_cells, List.foldl_append]
    by_cases hblank : (pyStrip c.full_cell_text_to_translate).isEmpty
    · rw [if_pos hblank]
      simp only [List.foldl_nil]
      rw [foldl_write_cell_shift, ih, List.map_cons]
      rw [fill_cell, if_pos hblank]
    · rw [if_neg hblank]
      simp only [List.foldl_cons, List.foldl_nil]
      rw [show write_cell (c :: cs) 0 (g c.full_cell_text_to_translate)
            = { c with translation := some (g c.full_cell_text_to_translate) } :: cs from rfl]
      rw [foldl_write_cell_shift, ih, List.map_cons]
      rw [fill_cell, if_neg hblank]

/-- Folding row writes addressed to row 0 rewrites only the head row's
cells. -/
theorem foldl_write_row_zero (g : Text → Text) (l : List (Nat × Text))
    (r : RowData) (rs : List RowData) :
    (l.map (fun p => ((0, p.1), p.2))).foldl
        (fun acc p => write_row acc p.1.1 p.1.2 (g p.2)) (r :: rs)
      = (⟨l.foldl (fun acc p => write_cell acc p.1 (g p.2)) r.cells⟩ : RowData) :: rs := by
  induction l generalizing r rs with
  | nil => rfl
  | cons p ps ih =>
    simp only [List.map_cons, List.foldl_cons]
    rw [show write_row (r :: rs) 0 p.1 (g p.2)
          = (⟨write_cell r.cells p.1 (g p.2)⟩ : RowData) :: rs from rfl]
    exact ih ⟨write_cell r.cells p.1 (g p.2)⟩ rs

/-- Folding the cell tasks of a row list over that list translates each
non-blank cell of each row in place. -/
theorem tasks_of_rows_fold (g : Text → Text) (rows : List RowData) :
    (tasks_of_rows rows).foldl (fun acc p => write_row acc p.1.1 p.1.2 (g p.2)) rows
      = rows.map (fill_row g) := by
  induction rows with
  | nil => rfl
  | cons r rs ih =>
    simp only [tasks_of_rows, List.foldl_append]
    rw [foldl_write_row_zero, tasks_of_cells_fold, foldl_write_row_shift, ih, List.map_cons]
    rw [fill_row]

/-- Folding block writes addressed to a cell of block 0 rewrites only the
head table's rows. -/
theorem foldl_apply_write_table_zero (g : Text → Text)
    (l : List ((Nat × Nat) × Text)) (tb : TableBlock) (bs : List Block) :
    (l.map (fun p => (Slot.cell 0 p.1.1 p.1.2, p.2))).foldl
        (fun acc p => apply_write acc p.1 (g p.2)) (Block.table tb :: bs)
      = Block.table { tb with
          rows := l.foldl (fun acc p => write_row acc p.1.1 p.1.2 (g p.2)) tb.rows } :: bs := by
  induction l generalizing tb bs with
  | nil => rfl
  | cons p ps ih =>
    simp only [List.map_cons, List.foldl_cons]
    rw [show apply_write (Block.table tb :: bs) (Slot.cell 0 p.1.1 p.1.2) (g p.2)
          = Block.table { tb with rows := write_row tb.rows p.1.1 p.1.2 (g p.2) } :: bs from rfl]
    exact ih { tb with rows := write_row tb.rows p.1.1 p.1.2 (g p.2) } bs

/-- Folding the tasks of one block over that block translates it in place
and leaves the tail alone. -/
theorem tasks_of_block_fold (g : Text → Text) (b : Block) (bs : List Block) :
    (tasks_of_block b).foldl (fun acc p => apply_write acc p.1 (g p.2)) (b :: bs)
      = fill_block g b :: bs := by
  cases b with
  | paragraph pb =>
    simp only [tasks_of_block, fill_block]
    by_cases hblank : (pyStrip pb.para.text_to_translate).isEmpty
    · rw [if_pos hblank, if_pos hblank]
      rfl
    · rw [if_neg hblank, if_neg hblank]
      rfl
  | table tb =>
    simp only [tasks_of_block, fill_block]
    rw [foldl_apply_write_table_zero, tasks_of_rows_fold]

/-- The scheduler's indexed write-back equals the pointwise specification:
every collected unit's translation lands in that unit's own slot, and no
other slot is touched. -/
theorem collect_write_eq_fill (g : Text → Text) (blocks : List Block) :
    (collect_tasks blocks).foldl (fun acc p => apply_write acc p.1 (g p.2)) blocks
      = blocks.map (fill_block g) := by
  induction blocks with
  | nil => rfl
  | cons b bs ih =>
    simp only [collect_tasks, List.foldl_append]
    rw [tasks_of_block_fold, foldl_apply_write_shift, ih, List.map_cons]

/-- Zipping a list with its own image is mapping to pairs. -/
theorem zip_map_self {α β : Type} (h : α → β) (l : List α) :
    List.zip l (l.map h) = l.map (fun x => (x, h x)) := by
  induction l with
  | nil => rfl
  | cons x xs ih => simp [List.zip_cons_cons, ih]

/-- The block index a slot addresses. -/
def slot_block_idx : Slot → Nat
  | .para i => i
  | .cell i _ _ => i

/-- Shifting increments the addressed block index. -/
theorem slot_block_idx_shift (s : Slot) :
    slot_block_idx (shiftSlot s) = slot_block_idx s + 1 := by
  cases s <;> rfl

/-- Shifting slots is injective. -/
theorem shiftSlot_inj : Function.Injective shiftSlot := by
  intro a b h
  cases a <;> cases b <;> simp [shiftSlot] at h ⊢ <;> omega

/-- Composition identities for the address projections. -/
theorem map_fst_shift_nat (l : List (Nat × Text)) :
    (l.map (fun p => (p.1 + 1, p.2))).map Prod.fst
      = (l.map Prod.fst).map (fun n => n + 1) := by
  simp only [List.map_map]
  rfl

/-- Rows: shifted address projection. -/
theorem map_fst_shift_rc (l : List ((Nat × Nat) × Text)) :
    (l.map (fun p => ((p.1.1 + 1, p.1.2), p.2))).map Prod.fst
      = (l.map Prod.fst).map (fun q => (q.1 + 1, q.2)) := by
  simp only [List.map_map]
  rfl

/-- Rows: head-row address projection. -/
theorem map_fst_zero_pair (l : List (Nat × Text)) :
    (l.map (fun p => (((0 : Nat), p.1), p.2))).map Prod.fst
      = (l.map Prod.fst).map (fun n => ((0 : Nat), n)) := by
  simp only [List.map_map]
  rfl

/-- Blocks: cell-slot address projection. -/
theorem map_fst_cellslot (l : List ((Nat × Nat) × Text)) :
    (l.map (fun p => (Slot.cell 0 p.1.1 p.1.2, p.2))).map Prod.fst
      = (l.map Prod.fst).map (fun q => Slot.cell 0 q.1 q.2) := by
  simp only [List.map_map]
  rfl

/-- Blocks: shifted slot projection. -/
theorem map_fst_shiftSlot (l : List (Slot × Text)) :
    (l.map (fun p => (shiftSlot p.1, p.2))).map Prod.fst
      = (l.map Prod.fst).map shiftSlot := by
  simp only [List.map_map]
  rfl

/-- The cell addresses collected from one row are pairwise distinct. -/
theorem tasks_of_cells_fst_nodup (cells : List CellData) :
    ((tasks_of_cells cells).map Prod.fst).Nodup := by
  induction cells with
  | nil => simp [tasks_of_cells]
  | cons c cs ih =>
    simp only [tasks_of_cells, List.map_append]
    rw [List.nodup_append, map_fst_shift_nat]
    refine ⟨?_, (ih.map (add_left_injective 1)), ?_⟩
    · by_cases hblank : (pyStrip c.full_cell_text_to_translate).isEmpty
      · rw [if_pos hblank]
        simp
      · rw [if_neg hblank]
        simp
    · intro a ha hmem
      rcases List.mem_map.mp hmem with ⟨n, -, hn⟩
      by_cases hblank : (pyStrip c.full_cell_text_to_translate).isEmpty
      · rw [if_pos hblank] at ha
        simp at ha
      · rw [if_neg hblank] at ha
        simp at ha
        omega

/-- The (row, cell) addresses collected from one table are pairwise
distinct. -/
theorem tasks_of_rows_fst_nodup (rows : List RowData) :
    ((tasks_of_rows rows).map Prod.fst).Nodup := by
  induction rows with
  | nil => simp [tasks_of_rows]
  | cons r rs ih =>
    simp only [tasks_of_rows, List.map_append]
    rw [List.nodup_append, map_fst_zero_pair, map_fst_shift_rc]
    refine ⟨?_, ?_, ?_⟩
    · refine (tasks_of_cells_fst_nodup r.cells).map ?_
      intro a b h
      simpa using h
    · refine ih.map ?_
      intro a b h
      simp at h
      obtain ⟨h1, h2⟩ := h
      exact Prod.ext (by omega) h2
    · intro q hq hmem
      rcases List.mem_map.mp hq with ⟨n, -, hn⟩
      rcases List.mem_map.mp hmem with ⟨m, -, hm⟩
      rw [← hn] at hm
      simp at hm
  
/-- The slots collected from one block are pairwise distinct. -/
theorem tasks_of_block_fst_nodup (b : Block) :
    ((tasks_of_block b).map Prod.fst).Nodup := by
  cases b with
  | paragraph pb =>
    simp only [tasks_of_block]
    split
    · simp
    · simp
  | table tb =>
    simp only [tasks_of_block]
    rw [map_fst_cellslot]
    refine (tasks_of_rows_fst_nodup tb.rows).map ?_
    intro a b h
    simp [Slot.cell.injEq] at h
    exact Prod.ext h.1 h.2

/-- Every slot collected from one block addresses block index 0. -/
theorem tasks_of_block_idx_zero (b : Block) :
    ∀ s ∈ (tasks_of_block b).map Prod.fst, slot_block_idx s = 0 := by
  intro s hs
  cases b with
  | paragraph pb =>
    simp only [tasks_of_block] at hs
    split at hs
    · simp at hs
    · simp at hs
      subst hs
      rfl
  | table tb =>
    simp only [tasks_of_block, map_fst_cellslot] at hs
    rcases List.mem_map.mp hs with ⟨q, -, hq⟩
    rw [← hq]
    rfl

/-- The collected slots are pairwise distinct: no slot receives more than
one unit. -/
theorem collect_tasks_slots_nodup (blocks : List Block) :
    ((collect_tasks blocks).map Prod.fst).Nodup := by
  induction blocks with
  | nil => simp [collect_tasks]
  | cons b bs ih =>
    simp only [collect_tasks, List.map_append]
    rw [List.nodup_append, map_fst_shiftSlot]
    refine ⟨tasks_of_block_fst_nodup b, ih.map shiftSlot_inj, ?_⟩
    intro s hs hmem
    have h0 := tasks_of_block_idx_zero b s hs
    rcases List.mem_map.mp hmem with ⟨s0, -, hs0⟩
    have h1 := slot_block_idx_shift s0
    rw [hs0, h0] at h1
    omega

/-- C2: the scheduler collects one unit per non-blank paragraph and per
non-blank table cell in model order; the indexed write-back of the
in-order results equals the pointwise map that stores each unit's own
translation into that unit's own slot (so no slot receives another unit's
result), the collected slots are pairwise distinct (so no slot receives
more than one result), and with zero units no slot is written at all. -/
theorem c2_slot_correctness (sentTokenize : Text → Option (List Text))
    (translateFn : Text → Option Text) (blocks : List Block) :
    (run_translation_scheduler sentTokenize translateFn blocks
        = blocks.map (fill_block (process_and_translate_block sentTokenize translateFn)))
      ∧ ((collect_tasks blocks).map Prod.fst).Nodup
      ∧ (collect_tasks blocks = [] →
          run_translation_scheduler sentTokenize translateFn blocks = blocks) := by
  have hrun : run_translation_scheduler sentTokenize translateFn blocks
      = (collect_tasks blocks).foldl
          (fun acc p => apply_write acc p.1
            (process_and_translate_block sentTokenize translateFn p.2)) blocks := by
    dsimp only [run_translation_scheduler]
    rw [zip_map_self, List.foldl_map]
  refine ⟨?_, collect_tasks_slots_nodup blocks, ?_⟩
  · rw [hrun]
    exact collect_write_eq_fill (process_and_translate_block sentTokenize translateFn) blocks
  · intro hempty
    rw [hrun, hempty]
    rfl

/-- Witness for C2: with no collected units the scheduler writes nothing. -/
theorem c2_slot_correctness_witness :
    run_translation_scheduler tokNoneFn trNoneFn [] = [] :=
  (c2_slot_correctness tokNoneFn trNoneFn []).2.2 rfl

/-- The fallback CJK font (a1.py line 54). -/
def strSimSun : Text := "SimSun".data

/-- The default table grid style name (a1.py lines 533-538). -/
def strTableGrid : Text := "TableGrid".data

/-- An output run of the rebuilt document: a text run with the formatting
state produced by apply_run_formatting, or a re-embedded picture with the
dimension arguments the code passes to add_picture. -/
inductive OutRun where
  | text (t : Text) (fmt : TargetRun)
  | pic (blob : List Nat) (width height : Option Int)
deriving DecidableEq

/-- An output paragraph: applied style, alignment, runs. -/
structure OutPara where
  style : Option Text
  alignment : Option Int
  runs : List OutRun
deriving DecidableEq

/-- An output table cell: the paragraphs written into it. -/
structure OutCell where
  paras : List OutPara
deriving DecidableEq

/-- An output table: its grid dimensions, applied style, and per-row emitted
cell contents.  The horizontal/vertical merge bookkeeping mutates cells of
this grid in place and adds no body element, so it does not affect the
block-order property modelled here. -/
structure OutTable where
  num_rows : Nat
  num_cols : Nat
  style : Option Text
  cells_content : List (List OutCell)
deriving DecidableEq

/-- A body element of the rebuilt document: an original paragraph, a
translated counterpart paragraph, or a table. -/
inductive OutElem where
  | engPara (p : OutPara)
  | zhPara (p : OutPara)
  | table (t : OutTable)
deriving DecidableEq

/-- Python truthiness of an optional typed length: None and zero are falsy. -/
def truthy_dim : Option Int → Bool
  | some v => v != 0
  | none => false

/-- The style the assembler passes: the recorded name when truthy and
present in the target document's style set, else none (a1.py line 483). -/
def eff_style (doc_styles : List Text) (name : Option Text) : Option Text :=
  match name with
  | some s => if ¬ s.isEmpty ∧ s ∈ doc_styles then some s else none
  | none => none

/-- A fresh output run, before formatting is applied. -/
def fresh_run : TargetRun := {}

/-- The formatting of a translated run (a1.py lines 513-519): the fallback
font for both the primary and east-Asian fields. -/
def zh_run_fmt : TargetRun :=
  { font_name := some strSimSun, east_asia := some strSimSun }

/-- The runs emitted for a paragraph's content items (a1.py lines 488-503):
text runs with their formatting applied, pictures re-embedded with declared
width and height, width only, or natural size. -/
def emit_content_runs (doc_styles : List Text) (items : List ContentItem) : List OutRun :=
  items.map (fun item =>
    match item with
    | .text t style_info => OutRun.text t (apply_run_formatting doc_styles fresh_run style_info)
    | .image img =>
      if truthy_dim img.width = true ∧ truthy_dim img.height = true then
        OutRun.pic img.blob img.width img.height
      else if truthy_dim img.width = true then OutRun.pic img.blob img.width none
      else OutRun.pic img.blob none none)

/-- The original-paragraph output for a parsed paragraph (a1.py lines
481-503), also used for paragraphs inside table cells (lines 550-573). -/
def eng_para_out (doc_styles : List Text) (pp : ParsedPara) : OutPara :=
  ⟨eff_style doc_styles pp.paragraph_style_name, pp.paragraph_alignment,
    emit_content_runs doc_styles pp.content_items⟩

/-- The translated-counterpart paragraph for a top-level paragraph (a1.py
lines 505-519): same style and alignment, one run in the fallback font. -/
def zh_para_out (doc_styles : List Text) (pp : ParsedPara) (t : Text) : OutPara :=
  ⟨eff_style doc_styles pp.paragraph_style_name, pp.paragraph_alignment,
    [OutRun.text t zh_run_fmt]⟩

/-- The translated-counterpart fragment of one paragraph block (a1.py lines
505-519): emitted only when the translation slot is truthy and non-blank. -/
def zh_tail (doc_styles : List Text) (pb : ParagraphBlock) : List OutElem :=
  match pb.translation with
  | some t =>
    if ¬ t.isEmpty ∧ ¬ (pyStrip t).isEmpty then
      [OutElem.zhPara (zh_para_out doc_styles pb.para t)]
    else []
  | none => []

/-- The body elements emitted for one paragraph block: the reproduced
original, then the translated counterpart fragment. -/
def emit_paragraph_block (doc_styles : List Text) (pb : ParagraphBlock) : List OutElem :=
  OutElem.engPara (eng_para_out doc_styles pb.para) :: zh_tail doc_styles pb

/-- The paragraphs written into one target cell (a1.py lines 550-584): the
cell's parsed paragraphs, then one unstyled bilingual paragraph when the
cell translation is truthy and non-blank. -/
def emit_out_cell (doc_styles : List Text) (cd : CellData) : OutCell :=
  ⟨cd.paragraphs_data.map (eng_para_out doc_styles)
    ++ (match cd.translation with
        | some t =>
          if ¬ t.isEmpty ∧ ¬ (pyStrip t).isEmpty then
            [⟨none, none, [OutRun.text t zh_run_fmt]⟩]
          else []
        | none => [])⟩

/-- The cell loop of one row (a1.py lines 540-594): cells are filled left to
right at the running grid column; once the running column reaches the table
width the remaining source cells are skipped (line 543). -/
def emit_row_cells (doc_styles : List Text) (num_cols : Nat) :
    Nat → List CellData → List OutCell
  | _, [] => []
  | col, cd :: rest =>
    if num_cols ≤ col then []
    else emit_out_cell doc_styles cd
      :: emit_row_cells doc_styles num_cols (col + cd.grid_span) rest

/-- The table style applied (a1.py lines 527-538): the recorded name when
truthy and available, else the default grid style when available. -/
def table_style_choice (doc_styles : List Text) (name : Option Text) : Option Text :=
  match name with
  | some s =>
    if ¬ s.isEmpty ∧ s ∈ doc_styles then some s
    else if strTableGrid ∈ doc_styles then some strTableGrid
    else none
  | none => if strTableGrid ∈ doc_styles then some strTableGrid else none

/-- The output table built for one table block (a1.py lines 526-611). -/
def build_out_table (doc_styles : List Text) (td : TableBlock) : OutTable :=
  { num_rows := td.rows.length
    num_cols := td.max_cols
    style := table_style_choice doc_styles td.style_name
    cells_content := td.rows.map (fun r => emit_row_cells doc_styles td.max_cols 0 r.cells) }

/-- One iteration of the assembler loop (a1.py lines 479-611): append the
paragraph's elements, or the table — skipped entirely when it has no rows
or no columns (line 524). -/
def assemble_step (doc_styles : List Text) (new_doc : List OutElem) (data_item : Block) :
    List OutElem :=
  match data_item with
  | .paragraph pb => new_doc ++ emit_paragraph_block doc_styles pb
  | .table td =>
    if td.rows.length = 0 ∨ td.max_cols = 0 then new_doc
    else new_doc ++ [OutElem.table (build_out_table doc_styles td)]

/-- Model of create_interleaved_docx (a1.py lines 476-614): fold the
assembler loop over the processed blocks, starting from an empty document. -/
def create_interleaved_docx (doc_styles : List Text) (processed_data : List Block) :
    List OutElem :=
  processed_data.foldl (assemble_step doc_styles) []

/-- Claim-side per-block emission: the fragment of body elements one block
contributes. -/
def emit_block (doc_styles : List Text) : Block → List OutElem
  | .paragraph pb => emit_paragraph_block doc_styles pb
  | .table td =>
    if td.rows.length = 0 ∨ td.max_cols = 0 then []
    else [OutElem.table (build_out_table doc_styles td)]

/-- Whether a body element reproduces an original block (rather than a
translated counterpart). -/
def is_original_elem : OutElem → Bool
  | .engPara _ => true
  | .zhPara _ => false
  | .table _ => true

/-- The original body element a block is reproduced as. -/
def original_of_block (doc_styles : List Text) : Block → OutElem
  | .paragraph pb => OutElem.engPara (eng_para_out doc_styles pb.para)
  | .table td => OutElem.table (build_out_table doc_styles td)

/-- Whether the assembler drops a block: a table with no rows or no
columns. -/
def dropped_block : Block → Bool
  | .paragraph _ => false
  | .table td => decide (td.rows.length = 0 ∨ td.max_cols = 0)

/-- One assembler iteration appends exactly the block's fragment. -/
theorem assemble_step_eq (doc_styles : List Text) (acc : List OutElem) (b : Block) :
    assemble_step doc_styles acc b = acc ++ emit_block doc_styles b := by
  cases b with
  | paragraph pb => rfl
  | table td =>
    simp only [assemble_step, emit_block]
    split
    · simp
    · rfl

/-- The assembled body is the concatenation of the per-block fragments, in
block order. -/
theorem create_eq_flatMap (doc_styles : List Text) (processed_data : List Block) :
    create_interleaved_docx doc_styles processed_data
      = processed_data.flatMap (emit_block doc_styles) := by
  suffices h : ∀ (blocks : List Block) (acc : List OutElem),
      blocks.foldl (assemble_step doc_styles) acc
        = acc ++ blocks.flatMap (emit_block doc_styles) by
    simpa using h processed_data []
  intro blocks
  induction blocks with
  | nil => intro acc; simp
  | cons b bs ih =>
    intro acc
    rw [List.foldl_cons, assemble_step_eq, ih]
    simp [List.flatMap_cons]

/-- The original elements of one block's fragment: exactly the block's
reproduced original, unless the block is dropped. -/
theorem emit_block_filter_original (doc_styles : List Text) (b : Block) :
    (emit_block doc_styles b).filter is_original_elem
      = if dropped_block b then [] else [original_of_block doc_styles b] := by
  cases b with
  | paragraph pb =>
    simp only [emit_block, emit_paragraph_block, dropped_block, original_of_block]
    rw [List.filter_cons]
    have hzh : (zh_tail doc_styles pb).filter is_original_elem = [] := by
      simp only [zh_tail]
      split
      · split <;> rfl
      · rfl
    rw [hzh]
    simp [is_original_elem]
  | table td =>
    simp only [emit_block, dropped_block, original_of_block]
    by_cases hd : td.rows.length = 0 ∨ td.max_cols = 0
    · rw [if_pos hd, if_pos (by simpa using hd)]
      rfl
    · rw [if_neg hd, if_neg (by simpa using hd)]
      simp [is_original_elem]

/-- The original elements of the assembled body are the non-dropped blocks,
reproduced in model order. -/
theorem create_filter_original (doc_styles : List Text) (blocks : List Block) :
    (create_interleaved_docx doc_styles blocks).filter is_original_elem
      = (blocks.filter (fun b => !dropped_block b)).map (original_of_block doc_styles) := by
  rw [create_eq_flatMap]
  induction blocks with
  | nil => rfl
  | cons b bs ih =>
    rw [List.flatMap_cons, List.filter_append, emit_block_filter_original, List.filter_cons, ih]
    by_cases hd : dropped_block b
    · rw [if_pos hd]
      simp [hd]
    · rw [if_neg hd]
      simp [hd]

/-- C1 counterexample: a source table with no rows is kept in the built
model but emitted nowhere by the assembler, so the rebuilt document's
originals are not all the model blocks in order. -/
theorem c1_counterexample :
    (create_interleaved_docx []
        (parse_docx_for_translation [SourceBlock.tbl ⟨[], none, 3⟩])).filter is_original_elem
      ≠ (parse_docx_for_translation [SourceBlock.tbl ⟨[], none, 3⟩]).map
          (original_of_block []) := by
  decide

/-- C1 (amended): the built model is the order-preserving image of the kept
source blocks; the assembled body is the in-order concatenation of the
per-block fragments, each an original immediately followed by its
translated counterpart when one exists; and its original elements are
exactly the model blocks in model order, except tables with zero rows or a
zero column count, which are skipped entirely. -/
theorem c1_block_order_amended (doc_styles : List Text) (blocks : List Block)
    (source_doc : List SourceBlock) :
    (create_interleaved_docx doc_styles blocks = blocks.flatMap (emit_block doc_styles))
      ∧ ((create_interleaved_docx doc_styles blocks).filter is_original_elem
          = (blocks.filter (fun b => !dropped_block b)).map (original_of_block doc_styles))
      ∧ parse_docx_for_translation source_doc = source_doc.filterMap parse_block :=
  ⟨create_eq_flatMap doc_styles blocks, create_filter_original doc_styles blocks,
    parse_docx_eq_filterMap source_doc⟩
